import Mathlib

/-!
Verification of the MySQL v10 handshake decoder of this repository.

The Go decoder (`func (s *MySQLv10) Decode(buf []byte) error`) is shallow
embedded here over byte buffers modelled as `List Nat` (a Go `[]byte` always
holds values below 256).  Machine integers are modelled as `Nat` (and `Int`
for the one signed local variable `authLen`); no overflow is possible in the
decoder because every assembled value is bounded by the byte width of its
input.  A Go runtime panic from an out of range index or slice is modelled
explicitly by the `DecodeResult.oob` outcome; the two returned error values
are `DecodeResult.err`.  The decoder is split into stage functions that follow
the straight line source order: `MySQLv10.Decode` (header checks, protocol
byte, server version), `MySQLv10.decodeFields` (connection id, first auth data
part, lower capability flags), `MySQLv10.decodeExtFields` (the extended field
region).
-/

/-- Capability flag bit `clientPluginAuth` from the source const block. -/
def clientPluginAuth : Nat := 0x00080000

/-- Capability flag bit `clientSecureConnection` from the source const block. -/
def clientSecureConnection : Nat := 0x00008000

/-- The decoded handshake record (source struct `MySQLv10`).  Go strings are
modelled as byte lists. -/
structure MySQLv10 where
  ServerVersion : List Nat
  ConnectionId : Nat
  CharacterSet : Nat
  Status : Nat
  Capabilities : Nat
  AuthPlugin : List Nat
  AuthData : List Nat
deriving DecidableEq, Repr

/-- The Go zero value `MySQLv10{}`, the receiver used at the only call site
(`DetectMySQL`). -/
def MySQLv10.zero : MySQLv10 :=
  { ServerVersion := [], ConnectionId := 0, CharacterSet := 0, Status := 0,
    Capabilities := 0, AuthPlugin := [], AuthData := [] }

/-- The two error values returned by the decoder (source `ErrorMissingData`
and `ErrorInvalidProtocol`). -/
inductive DecodeError where
  | MissingData
  | InvalidProtocol
deriving DecidableEq, Repr

/-- Outcome of running `Decode`: a normal return (`ok` carries the decoded
record, `err` the returned error value), or `oob` when the Go code would
panic with an index or slice out of range.  Partial mutation of the receiver
on an error return is not observable at the call site and is not modelled. -/
inductive DecodeResult where
  | ok (s : MySQLv10)
  | err (e : DecodeError)
  | oob
deriving DecidableEq, Repr

/-- Go slice expression `buf[a:b]`: defined when `a ≤ b ≤ len(buf)`, otherwise
the program panics (`none`). -/
def goSlice (buf : List Nat) (a b : Nat) : Option (List Nat) :=
  if a ≤ b ∧ b ≤ buf.length then some ((buf.drop a).take (b - a)) else none

/-- Source `read_cstr`: `bytes.IndexByte(buf, 0)`; the whole remainder when no
null byte exists, the prefix before the first null byte otherwise. -/
def read_cstr (buf : List Nat) : List Nat :=
  match buf.findIdx? (fun b => b == 0) with
  | none => buf
  | some pos => buf.take pos

/-- `binary.LittleEndian.Uint16` on a 2 byte slice. -/
def leUint16 (b : List Nat) : Nat := b.getD 0 0 ||| b.getD 1 0 <<< 8

/-- `binary.LittleEndian.Uint32` on a 4 byte slice. -/
def leUint32 (b : List Nat) : Nat :=
  b.getD 0 0 ||| b.getD 1 0 <<< 8 ||| b.getD 2 0 <<< 16 ||| b.getD 3 0 <<< 24

/-- The 24 bit little endian packet body length computed on source line 97:
`uint32(buf[0]) | uint32(buf[1])<<8 | uint32(buf[2])<<16`. -/
def pktLen24 (buf : List Nat) : Nat :=
  buf.getD 0 0 ||| buf.getD 1 0 <<< 8 ||| buf.getD 2 0 <<< 16

/-- Length of the second auth data chunk, source lines 154 to 158:
`authDataLen := 13; if authLen-8 > authDataLen { authDataLen = authLen-8 };
authDataLen -= 1`.  Both branches leave a value of at least 13, so converting
the Go `int` to `Nat` before the final decrement is exact. -/
def authDataLenOf (authLen : Int) : Nat :=
  (if authLen - 8 > 13 then authLen - 8 else 13).toNat - 1

/-- Source lines 131 to 169, the extended field region: character set, status
flags, upper capability flags, declared auth plugin data length (sentinel -1
when the plugin auth bit is unset), 10 reserved bytes, the optional second
auth data chunk, the optional auth plugin name.  `pos` is the cursor at entry
(just after the lower capability flags). -/
def MySQLv10.decodeExtFields (s : MySQLv10) (buf : List Nat)
    (serverVersion : List Nat) (connectionId : Nat) (authData1 : List Nat)
    (caps : Nat) (pos : Nat) : DecodeResult :=
  match buf[pos]? with
  | none => .oob
  | some charSet =>
  match goSlice buf (pos + 1) (pos + 1 + 2) with
  | none => .oob
  | some st2 =>
  match goSlice buf (pos + 3) (pos + 3 + 2) with
  | none => .oob
  | some cap2 =>
  let caps2 := caps ||| leUint16 cap2 <<< 16
  match (if caps2 &&& clientPluginAuth ≠ 0
         then (buf[pos + 5]?).map Int.ofNat else some (-1)) with
  | none => .oob
  | some authLen =>
  match (if caps2 &&& clientSecureConnection ≠ 0 then
           (goSlice buf (pos + 16) (pos + 16 + authDataLenOf authLen)).map
             (fun chunk => (authData1 ++ chunk, pos + 16 + authDataLenOf authLen + 1))
         else some (authData1, pos + 16)) with
  | none => .oob
  | some (authData, pos2) =>
  match (if caps2 &&& clientPluginAuth ≠ 0
         then (goSlice buf pos2 buf.length).map read_cstr else some s.AuthPlugin) with
  | none => .oob
  | some authPlugin =>
  .ok { s with
        ServerVersion := serverVersion
        ConnectionId := connectionId
        CharacterSet := charSet
        Status := leUint16 st2
        Capabilities := caps2
        AuthPlugin := authPlugin
        AuthData := authData }

/-- Source lines 119 to 132: connection id, first 8 auth data bytes, filler
byte, lower capability flags, then the extended field test
`pos < pktLen + 4`.  `pos` is the cursor just after the server version
terminator. -/
def MySQLv10.decodeFields (s : MySQLv10) (buf : List Nat) (pktLen : Nat)
    (serverVersion : List Nat) (pos : Nat) : DecodeResult :=
  match goSlice buf pos (pos + 4) with
  | none => .oob
  | some b4 =>
  match goSlice buf (pos + 4) (pos + 4 + 8) with
  | none => .oob
  | some authData1 =>
  match goSlice buf (pos + 13) (pos + 13 + 2) with
  | none => .oob
  | some b2 =>
  let caps := leUint16 b2
  if pos + 15 < pktLen + 4 then
    MySQLv10.decodeExtFields s buf serverVersion (leUint32 b4) authData1 caps (pos + 15)
  else
    .ok { s with
          ServerVersion := serverVersion
          ConnectionId := leUint32 b4
          Capabilities := caps
          AuthData := authData1 }

/-- Source lines 91 to 117: the two header length checks, the protocol
version byte, the null terminated server version string. -/
def MySQLv10.Decode (s : MySQLv10) (buf : List Nat) : DecodeResult :=
  if buf.length < 4 then .err .MissingData
  else
    let pktLen := pktLen24 buf
    if pktLen + 4 > buf.length then .err .MissingData
    else
      match buf[4]? with
      | none => .oob
      | some ver =>
        if 10 ≠ ver then .err .InvalidProtocol
        else
          match goSlice buf 5 buf.length with
          | none => .oob
          | some rest =>
            let serverVersion := read_cstr rest
            MySQLv10.decodeFields s buf pktLen serverVersion (5 + (serverVersion.length + 1))

example : MySQLv10.Decode MySQLv10.zero [0, 0, 0, 0] = .oob := by decide

example : MySQLv10.Decode MySQLv10.zero [] = .err .MissingData := by decide

example :
    MySQLv10.Decode MySQLv10.zero
      ([1, 0, 0, 0, 10] ++ List.replicate 16 0) =
    .ok { MySQLv10.zero with AuthData := List.replicate 8 0 } := by decide

/-! ## Wire format construction (spec section 4.2)

The decoder claims quantify over well formed protocol 10 packets.  A well
formed packet is produced by the following encoder, written from the wire
layout of spec section 4.2: 3 byte little endian packet body length, 1 byte
sequence number, protocol byte 10, null terminated server version, 4 byte
connection id, 8 bytes of auth data, a zero filler byte, 2 byte lower
capability flags, then (when extended fields are present) character set,
2 byte status flags, 2 byte upper capability flags, the declared auth plugin
data length byte, 10 reserved bytes, the optional second auth data chunk with
its trailing null byte, and the optional null terminated auth plugin name. -/

/-- Two byte little endian encoding. -/
def le16 (n : Nat) : List Nat := [n % 256, n / 256 % 256]

/-- Three byte little endian encoding. -/
def le24 (n : Nat) : List Nat := [n % 256, n / 256 % 256, n / 65536 % 256]

/-- Four byte little endian encoding. -/
def le32 (n : Nat) : List Nat :=
  [n % 256, n / 256 % 256, n / 65536 % 256, n / 16777216 % 256]

/-- Packet body following spec section 4.2 (everything after the 4 byte
header).  `ext` selects whether the extended field region is present. -/
def encodeBody (ext : Bool) (version : List Nat) (cid : Nat) (auth1 : List Nat)
    (charSet st caps alb : Nat) (chunk plugin : List Nat) : List Nat :=
  [10] ++ version ++ [0] ++ le32 cid ++ auth1 ++ [0] ++ le16 (caps % 65536) ++
  (if ext then
    [charSet] ++ le16 st ++ le16 (caps / 65536) ++ [alb] ++ List.replicate 10 0 ++
    (if caps &&& clientSecureConnection ≠ 0 then chunk ++ [0] else []) ++
    (if caps &&& clientPluginAuth ≠ 0 then plugin ++ [0] else [])
  else [])

/-- Full packet: 3 byte body length, sequence byte, body. -/
def encodeHandshake (seq : Nat) (ext : Bool) (version : List Nat) (cid : Nat)
    (auth1 : List Nat) (charSet st caps alb : Nat)
    (chunk plugin : List Nat) : List Nat :=
  le24 (encodeBody ext version cid auth1 charSet st caps alb chunk plugin).length ++
  [seq] ++ encodeBody ext version cid auth1 charSet st caps alb chunk plugin

/-- Packet encoding a whole `MySQLv10` record (spec section 8, round trip). -/
def encodeRecord (seq : Nat) (ext : Bool) (alb : Nat) (r : MySQLv10) : List Nat :=
  encodeHandshake seq ext r.ServerVersion r.ConnectionId (r.AuthData.take 8)
    r.CharacterSet r.Status r.Capabilities alb (r.AuthData.drop 8) r.AuthPlugin

/-! ## Arithmetic helper lemmas -/

theorem lor_shl_eq_add (x y k : Nat) (h : x < 2 ^ k) :
    x ||| y <<< k = 2 ^ k * y + x := by
  apply Nat.eq_of_testBit_eq
  intro i
  rw [Nat.testBit_lor, Nat.testBit_shiftLeft, Nat.testBit_mul_pow_two_add y h i]
  by_cases hik : i < k
  · have : ¬ i ≥ k := by omega
    simp [hik, this]
  · have hx : x < 2 ^ i :=
      lt_of_lt_of_le h (Nat.pow_le_pow_right (by norm_num) (by omega))
    have : i ≥ k := by omega
    simp [hik, this, Nat.testBit_lt_two_pow hx]

theorem leUint16_le16 (n : Nat) (h : n < 65536) : leUint16 (le16 n) = n := by
  show (n % 256) ||| (n / 256 % 256) <<< 8 = n
  rw [lor_shl_eq_add _ _ 8 (by omega)]
  omega

theorem leUint32_le32 (n : Nat) (h : n < 4294967296) : leUint32 (le32 n) = n := by
  show (n % 256) ||| (n / 256 % 256) <<< 8 ||| (n / 65536 % 256) <<< 16 |||
      (n / 16777216 % 256) <<< 24 = n
  rw [lor_shl_eq_add _ _ 8 (by omega)]
  rw [lor_shl_eq_add _ _ 16 (by norm_num; omega)]
  rw [lor_shl_eq_add _ _ 24 (by norm_num; omega)]
  norm_num
  omega

theorem pktLen24_le24 (n : Nat) (R : List Nat) (h : n < 16777216) :
    pktLen24 (le24 n ++ R) = n := by
  show (n % 256) ||| (n / 256 % 256) <<< 8 ||| (n / 65536 % 256) <<< 16 = n
  rw [lor_shl_eq_add _ _ 8 (by omega)]
  rw [lor_shl_eq_add _ _ 16 (by norm_num; omega)]
  norm_num
  omega

theorem caps_assemble (c : Nat) (h : c < 4294967296) :
    c % 65536 ||| (c / 65536) <<< 16 = c := by
  rw [lor_shl_eq_add _ _ 16 (by omega)]
  omega

/-! ## Buffer position helper lemmas -/

theorem goSlice_of_eq (buf P S R : List Nat) (a b : Nat)
    (hbuf : buf = P ++ (S ++ R)) (ha : a = P.length) (hb : b = P.length + S.length) :
    goSlice buf a b = some S := by
  subst hbuf ha hb
  have hcond : P.length ≤ P.length + S.length ∧
      P.length + S.length ≤ (P ++ (S ++ R)).length := by
    simp only [List.length_append]
    omega
  rw [goSlice, if_pos hcond, List.drop_left, Nat.add_sub_cancel_left, List.take_left]

theorem goSlice_end_of_eq (buf P R : List Nat) (a : Nat)
    (hbuf : buf = P ++ R) (ha : a = P.length) :
    goSlice buf a buf.length = some R := by
  subst hbuf ha
  have hcond : P.length ≤ (P ++ R).length ∧ (P ++ R).length ≤ (P ++ R).length := by
    simp only [List.length_append]
    omega
  rw [goSlice, if_pos hcond, List.drop_left, List.length_append,
    Nat.add_sub_cancel_left, List.take_length]

theorem getElem?_of_eq (buf P R : List Nat) (x : Nat) (a : Nat)
    (hbuf : buf = P ++ x :: R) (ha : a = P.length) :
    buf[a]? = some x := by
  subst hbuf ha
  rw [List.getElem?_append_right (le_refl _), Nat.sub_self]
  simp

theorem findIdx?_zero_append (v R : List Nat) (hv : ∀ b ∈ v, b ≠ 0) (i : Nat) :
    List.findIdx? (fun b => b == 0) (v ++ 0 :: R) i = some (i + v.length) := by
  induction v generalizing i with
  | nil => rw [List.nil_append, List.findIdx?_cons]; simp
  | cons a v ih =>
    have ha : (a == 0) = false := by
      simp [hv a (List.mem_cons_self a v)]
    rw [List.cons_append, List.findIdx?_cons, ha, if_neg (by simp)]
    rw [ih (fun b hb => hv b (List.mem_cons_of_mem a hb)) (i + 1)]
    simp only [List.length_cons]
    congr 1
    omega

theorem read_cstr_append (v R : List Nat) (hv : ∀ b ∈ v, b ≠ 0) :
    read_cstr (v ++ 0 :: R) = v := by
  rw [read_cstr]
  rw [show List.findIdx? (fun b => b == 0) (v ++ 0 :: R) = some v.length from by
    simpa using findIdx?_zero_append v R hv 0]
  exact List.take_left v (0 :: R)

/-! ## Symbolic evaluation of the decoder stages on well formed buffers -/

theorem decodeFields_spec (s : MySQLv10) (B P b4 a1 b2 R sv : List Nat)
    (pktLen f pos : Nat)
    (hB : B = P ++ b4 ++ a1 ++ [f] ++ b2 ++ R) (hpos : pos = P.length)
    (hb4 : b4.length = 4) (ha1 : a1.length = 8) (hb2 : b2.length = 2) :
    MySQLv10.decodeFields s B pktLen sv pos =
    if pos + 15 < pktLen + 4 then
      MySQLv10.decodeExtFields s B sv (leUint32 b4) a1 (leUint16 b2) (pos + 15)
    else
      .ok { s with
            ServerVersion := sv
            ConnectionId := leUint32 b4
            Capabilities := leUint16 b2
            AuthData := a1 } := by
  have h1 : goSlice B pos (pos + 4) = some b4 :=
    goSlice_of_eq B P b4 (a1 ++ [f] ++ b2 ++ R) pos (pos + 4)
      (by simp [hB, List.append_assoc]) hpos (by omega)
  have h2 : goSlice B (pos + 4) (pos + 4 + 8) = some a1 :=
    goSlice_of_eq B (P ++ b4) a1 ([f] ++ b2 ++ R) _ _
      (by simp [hB, List.append_assoc])
      (by simp only [List.length_append]; omega)
      (by simp only [List.length_append]; omega)
  have h3 : goSlice B (pos + 13) (pos + 13 + 2) = some b2 :=
    goSlice_of_eq B (P ++ b4 ++ a1 ++ [f]) b2 R _ _
      (by simp [hB, List.append_assoc])
      (by simp only [List.length_append, List.length_cons, List.length_nil]; omega)
      (by simp only [List.length_append, List.length_cons, List.length_nil]; omega)
  simp only [MySQLv10.decodeFields, h1, h2, h3]

theorem decodeExtFields_sec (s : MySQLv10) (B P s2 u2 rsv chunk Q2 sv a1 : List Nat)
    (cid caps charSet alb nb pos : Nat)
    (hB : B = P ++ [charSet] ++ s2 ++ u2 ++ [alb] ++ rsv ++ chunk ++ [nb] ++ Q2)
    (hpos : pos = P.length)
    (hs2 : s2.length = 2) (hu2 : u2.length = 2) (hrsv : rsv.length = 10)
    (hsec : (caps ||| leUint16 u2 <<< 16) &&& clientSecureConnection ≠ 0)
    (hchunk : chunk.length = authDataLenOf
      (if (caps ||| leUint16 u2 <<< 16) &&& clientPluginAuth ≠ 0 then Int.ofNat alb else -1)) :
    MySQLv10.decodeExtFields s B sv cid a1 caps pos =
    .ok { s with
          ServerVersion := sv
          ConnectionId := cid
          CharacterSet := charSet
          Status := leUint16 s2
          Capabilities := caps ||| leUint16 u2 <<< 16
          AuthPlugin := if (caps ||| leUint16 u2 <<< 16) &&& clientPluginAuth ≠ 0
                        then read_cstr Q2 else s.AuthPlugin
          AuthData := a1 ++ chunk } := by
  have h1 : B[pos]? = some charSet :=
    getElem?_of_eq B P (s2 ++ u2 ++ [alb] ++ rsv ++ chunk ++ [nb] ++ Q2) charSet pos
      (by simp [hB, List.append_assoc]) hpos
  have h2 : goSlice B (pos + 1) (pos + 1 + 2) = some s2 :=
    goSlice_of_eq B (P ++ [charSet]) s2 (u2 ++ [alb] ++ rsv ++ chunk ++ [nb] ++ Q2) _ _
      (by simp [hB, List.append_assoc])
      (by simp only [List.length_append, List.length_cons, List.length_nil]; omega)
      (by simp only [List.length_append, List.length_cons, List.length_nil]; omega)
  have h3 : goSlice B (pos + 3) (pos + 3 + 2) = some u2 :=
    goSlice_of_eq B (P ++ [charSet] ++ s2) u2 ([alb] ++ rsv ++ chunk ++ [nb] ++ Q2) _ _
      (by simp [hB, List.append_assoc])
      (by simp only [List.length_append, List.length_cons, List.length_nil]; omega)
      (by simp only [List.length_append, List.length_cons, List.length_nil]; omega)
  have h4 : B[pos + 5]? = some alb :=
    getElem?_of_eq B (P ++ [charSet] ++ s2 ++ u2) (rsv ++ chunk ++ [nb] ++ Q2) alb _
      (by simp [hB, List.append_assoc])
      (by simp only [List.length_append, List.length_cons, List.length_nil]; omega)
  by_cases hpa : (caps ||| leUint16 u2 <<< 16) &&& clientPluginAuth = 0
  · have hck : chunk.length = authDataLenOf (-1) := by
      rw [hchunk, if_neg (by simp [hpa])]
    have h5 : goSlice B (pos + 16) (pos + 16 + authDataLenOf (-1)) = some chunk :=
      goSlice_of_eq B (P ++ [charSet] ++ s2 ++ u2 ++ [alb] ++ rsv) chunk ([nb] ++ Q2) _ _
        (by simp [hB, List.append_assoc])
        (by simp only [List.length_append, List.length_cons, List.length_nil]; omega)
        (by simp only [List.length_append, List.length_cons, List.length_nil]; omega)
    simp only [MySQLv10.decodeExtFields, h1, h2, h3, h4, hpa, hsec, ne_eq,
      not_true_eq_false, not_false_eq_true, if_true, if_false, ite_true, ite_false, h5,
      Option.map_some']
  · have hck : chunk.length = authDataLenOf (Int.ofNat alb) := by
      rw [hchunk, if_pos hpa]
    have h5 : goSlice B (pos + 16) (pos + 16 + authDataLenOf (Int.ofNat alb)) = some chunk :=
      goSlice_of_eq B (P ++ [charSet] ++ s2 ++ u2 ++ [alb] ++ rsv) chunk ([nb] ++ Q2) _ _
        (by simp [hB, List.append_assoc])
        (by simp only [List.length_append, List.length_cons, List.length_nil]; omega)
        (by simp only [List.length_append, List.length_cons, List.length_nil]; omega)
    have h6 : goSlice B (pos + 16 + authDataLenOf (Int.ofNat alb) + 1) B.length = some Q2 :=
      goSlice_end_of_eq B (P ++ [charSet] ++ s2 ++ u2 ++ [alb] ++ rsv ++ chunk ++ [nb]) Q2 _
        (by simp [hB, List.append_assoc])
        (by simp only [List.length_append, List.length_cons, List.length_nil]; omega)
    simp only [MySQLv10.decodeExtFields, h1, h2, h3, h4, hpa, hsec, ne_eq,
      not_true_eq_false, not_false_eq_true, if_true, if_false, ite_true, ite_false, h5, h6,
      Option.map_some']

theorem decodeExtFields_nosec (s : MySQLv10) (B P s2 u2 rsv Q2 sv a1 : List Nat)
    (cid caps charSet alb pos : Nat)
    (hB : B = P ++ [charSet] ++ s2 ++ u2 ++ [alb] ++ rsv ++ Q2)
    (hpos : pos = P.length)
    (hs2 : s2.length = 2) (hu2 : u2.length = 2) (hrsv : rsv.length = 10)
    (hnosec : (caps ||| leUint16 u2 <<< 16) &&& clientSecureConnection = 0) :
    MySQLv10.decodeExtFields s B sv cid a1 caps pos =
    .ok { s with
          ServerVersion := sv
          ConnectionId := cid
          CharacterSet := charSet
          Status := leUint16 s2
          Capabilities := caps ||| leUint16 u2 <<< 16
          AuthPlugin := if (caps ||| leUint16 u2 <<< 16) &&& clientPluginAuth ≠ 0
                        then read_cstr Q2 else s.AuthPlugin
          AuthData := a1 } := by
  have h1 : B[pos]? = some charSet :=
    getElem?_of_eq B P (s2 ++ u2 ++ [alb] ++ rsv ++ Q2) charSet pos
      (by simp [hB, List.append_assoc]) hpos
  have h2 : goSlice B (pos + 1) (pos + 1 + 2) = some s2 :=
    goSlice_of_eq B (P ++ [charSet]) s2 (u2 ++ [alb] ++ rsv ++ Q2) _ _
      (by simp [hB, List.append_assoc])
      (by simp only [List.length_append, List.length_cons, List.length_nil]; omega)
      (by simp only [List.length_append, List.length_cons, List.length_nil]; omega)
  have h3 : goSlice B (pos + 3) (pos + 3 + 2) = some u2 :=
    goSlice_of_eq B (P ++ [charSet] ++ s2) u2 ([alb] ++ rsv ++ Q2) _ _
      (by simp [hB, List.append_assoc])
      (by simp only [List.length_append, List.length_cons, List.length_nil]; omega)
      (by simp only [List.length_append, List.length_cons, List.length_nil]; omega)
  have h4 : B[pos + 5]? = some alb :=
    getElem?_of_eq B (P ++ [charSet] ++ s2 ++ u2) (rsv ++ Q2) alb _
      (by simp [hB, List.append_assoc])
      (by simp only [List.length_append, List.length_cons, List.length_nil]; omega)
  have h6 : goSlice B (pos + 16) B.length = some Q2 :=
    goSlice_end_of_eq B (P ++ [charSet] ++ s2 ++ u2 ++ [alb] ++ rsv) Q2 _
      (by simp [hB, List.append_assoc])
      (by simp only [List.length_append, List.length_cons, List.length_nil]; omega)
  by_cases hpa : (caps ||| leUint16 u2 <<< 16) &&& clientPluginAuth = 0
  · simp only [MySQLv10.decodeExtFields, h1, h2, h3, h4, hpa, hnosec, ne_eq,
      not_true_eq_false, not_false_eq_true, if_true, if_false, ite_true, ite_false,
      Option.map_some']
  · simp only [MySQLv10.decodeExtFields, h1, h2, h3, h4, h6, hpa, hnosec, ne_eq,
      not_true_eq_false, not_false_eq_true, if_true, if_false, ite_true, ite_false,
      Option.map_some']

theorem Decode_start (s : MySQLv10) (B version T : List Nat) (L seq : Nat)
    (hB : B = le24 L ++ [seq] ++ [10] ++ version ++ [0] ++ T)
    (hv : ∀ b ∈ version, b ≠ 0)
    (hL : L = version.length + T.length + 2)
    (hlen : L < 16777216) :
    MySQLv10.Decode s B =
    MySQLv10.decodeFields s B L version (5 + (version.length + 1)) := by
  have hBlen : B.length = L + 4 := by
    simp only [hB, List.length_append, List.length_cons, List.length_nil, le24,
      List.length_singleton]
    omega
  have hpkt : pktLen24 B = L := by
    rw [show B = le24 L ++ ([seq] ++ [10] ++ version ++ [0] ++ T) from by
      simp [hB, List.append_assoc]]
    exact pktLen24_le24 _ _ hlen
  have h2 : B[4]? = some 10 :=
    getElem?_of_eq B (le24 L ++ [seq]) (version ++ [0] ++ T) 10 4
      (by simp [hB, List.append_assoc]) (by simp [le24])
  have h3 : goSlice B 5 B.length = some (version ++ 0 :: T) :=
    goSlice_end_of_eq B (le24 L ++ [seq] ++ [10]) (version ++ 0 :: T) 5
      (by simp [hB, List.append_assoc]) (by simp [le24])
  have h4 : read_cstr (version ++ 0 :: T) = version := read_cstr_append version T hv
  simp only [MySQLv10.Decode, hpkt, h2, h3, h4]
  rw [if_neg (by omega), if_neg (by omega), if_neg (by norm_num)]

/-- Decoding a well formed packet whose body ends at the lower capability
flags (no extended fields). -/
theorem decode_encode_noext (s : MySQLv10) (seq cid charSet st caps alb : Nat)
    (version auth1 chunk plugin : List Nat)
    (hv : ∀ b ∈ version, b ≠ 0) (hcid : cid < 4294967296) (hcaps : caps < 65536)
    (ha1 : auth1.length = 8) (hlen : version.length + 17 < 16777216) :
    MySQLv10.Decode s
      (encodeHandshake seq false version cid auth1 charSet st caps alb chunk plugin) =
    .ok { s with
          ServerVersion := version
          ConnectionId := cid
          Capabilities := caps
          AuthData := auth1 } := by
  have hblen : (encodeBody false version cid auth1 charSet st caps alb chunk plugin).length
      = version.length + 17 := by
    simp only [encodeBody, le32, le16, List.length_append, List.length_cons,
      List.length_nil, if_false, Bool.false_eq_true, ite_false]
    omega
  rw [Decode_start s _ version
      (le32 cid ++ auth1 ++ [0] ++ le16 (caps % 65536))
      (encodeBody false version cid auth1 charSet st caps alb chunk plugin).length seq
      (by simp [encodeHandshake, encodeBody, List.append_assoc])
      hv
      (by rw [hblen]; simp [le32, le16]; omega)
      (by omega)]
  rw [decodeFields_spec s _
      (le24 (encodeBody false version cid auth1 charSet st caps alb chunk plugin).length ++
        [seq] ++ [10] ++ version ++ [0])
      (le32 cid) auth1 (le16 (caps % 65536)) [] version
      (encodeBody false version cid auth1 charSet st caps alb chunk plugin).length
      0 (5 + (version.length + 1))
      (by simp [encodeHandshake, encodeBody, List.append_assoc])
      (by simp [le24]; omega)
      (by simp [le32]) ha1 (by simp [le16])]
  rw [if_neg (by omega)]
  rw [leUint32_le32 cid hcid, leUint16_le16 _ (by omega), Nat.mod_eq_of_lt hcaps]

/-- Decoding a well formed packet with the extended field region present.
The auth plugin name is decoded exactly when the plugin auth capability bit
is set; the second auth data chunk is consumed exactly when the secure
connection capability bit is set. -/
theorem decode_encode_ext (s : MySQLv10) (seq cid charSet st caps alb : Nat)
    (version auth1 chunk plugin : List Nat)
    (hv : ∀ b ∈ version, b ≠ 0) (hplug : ∀ b ∈ plugin, b ≠ 0)
    (hcid : cid < 4294967296) (hcaps : caps < 4294967296) (hst : st < 65536)
    (ha1 : auth1.length = 8)
    (hchunk : caps &&& clientSecureConnection ≠ 0 →
      chunk.length = authDataLenOf
        (if caps &&& clientPluginAuth ≠ 0 then Int.ofNat alb else -1))
    (hlen : (encodeBody true version cid auth1 charSet st caps alb chunk plugin).length
      < 16777216) :
    MySQLv10.Decode s
      (encodeHandshake seq true version cid auth1 charSet st caps alb chunk plugin) =
    .ok { s with
          ServerVersion := version
          ConnectionId := cid
          CharacterSet := charSet
          Status := st
          Capabilities := caps
          AuthPlugin := if caps &&& clientPluginAuth ≠ 0 then plugin else s.AuthPlugin
          AuthData := auth1 ++
            (if caps &&& clientSecureConnection ≠ 0 then chunk else []) } := by
  have hco : caps % 65536 ||| leUint16 (le16 (caps / 65536)) <<< 16 = caps := by
    rw [leUint16_le16 _ (by omega)]
    exact caps_assemble caps hcaps
  have hblen : (encodeBody true version cid auth1 charSet st caps alb chunk plugin).length =
      version.length + 33 +
      (if caps &&& clientSecureConnection ≠ 0 then chunk ++ [0] else []).length +
      (if caps &&& clientPluginAuth ≠ 0 then plugin ++ [0] else []).length := by
    simp only [encodeBody, le32, le16, List.length_append, List.length_cons,
      List.length_nil, List.length_replicate, if_true, ite_true]
    omega
  rw [Decode_start s _ version
      (le32 cid ++ auth1 ++ [0] ++ le16 (caps % 65536) ++ [charSet] ++ le16 st ++
        le16 (caps / 65536) ++ [alb] ++ List.replicate 10 0 ++
        (if caps &&& clientSecureConnection ≠ 0 then chunk ++ [0] else []) ++
        (if caps &&& clientPluginAuth ≠ 0 then plugin ++ [0] else []))
      (encodeBody true version cid auth1 charSet st caps alb chunk plugin).length seq
      (by simp [encodeHandshake, encodeBody, List.append_assoc])
      hv
      (by rw [hblen]; simp [le32, le16]; omega)
      hlen]
  rw [decodeFields_spec s _
      (le24 (encodeBody true version cid auth1 charSet st caps alb chunk plugin).length ++
        [seq] ++ [10] ++ version ++ [0])
      (le32 cid) auth1 (le16 (caps % 65536))
      ([charSet] ++ le16 st ++ le16 (caps / 65536) ++ [alb] ++ List.replicate 10 0 ++
        (if caps &&& clientSecureConnection ≠ 0 then chunk ++ [0] else []) ++
        (if caps &&& clientPluginAuth ≠ 0 then plugin ++ [0] else []))
      version
      (encodeBody true version cid auth1 charSet st caps alb chunk plugin).length
      0 (5 + (version.length + 1))
      (by simp [encodeHandshake, encodeBody, List.append_assoc])
      (by simp [le24]; omega)
      (by simp [le32]) ha1 (by simp [le16])]
  rw [if_pos (by omega)]
  rw [leUint32_le32 cid hcid, leUint16_le16 (caps % 65536) (by omega)]
  by_cases hsec : caps &&& clientSecureConnection = 0
  · rw [decodeExtFields_nosec s _
        (le24 (encodeBody true version cid auth1 charSet st caps alb chunk plugin).length ++
          [seq] ++ [10] ++ version ++ [0] ++ le32 cid ++ auth1 ++ [0] ++
          le16 (caps % 65536))
        (le16 st) (le16 (caps / 65536)) (List.replicate 10 0)
        (if caps &&& clientPluginAuth ≠ 0 then plugin ++ [0] else [])
        version auth1 cid (caps % 65536) charSet alb (5 + (version.length + 1) + 15)
        (by simp [encodeHandshake, encodeBody, List.append_assoc, hsec])
        (by simp [le24, le32, le16]; omega)
        (by simp [le16]) (by simp [le16]) (by simp)
        (by rw [hco]; exact hsec)]
    rw [leUint16_le16 st hst, hco]
    by_cases hpa : caps &&& clientPluginAuth = 0
    · simp [hpa, hsec]
    · have hrc : read_cstr (plugin ++ 0 :: []) = plugin := read_cstr_append plugin [] hplug
      simp [hpa, hsec, hrc]
  · rw [decodeExtFields_sec s _
        (le24 (encodeBody true version cid auth1 charSet st caps alb chunk plugin).length ++
          [seq] ++ [10] ++ version ++ [0] ++ le32 cid ++ auth1 ++ [0] ++
          le16 (caps % 65536))
        (le16 st) (le16 (caps / 65536)) (List.replicate 10 0) chunk
        (if caps &&& clientPluginAuth ≠ 0 then plugin ++ [0] else [])
        version auth1 cid (caps % 65536) charSet alb 0 (5 + (version.length + 1) + 15)
        (by simp [encodeHandshake, encodeBody, List.append_assoc, hsec])
        (by simp [le24, le32, le16]; omega)
        (by simp [le16]) (by simp [le16]) (by simp)
        (by rw [hco]; exact hsec)
        (by rw [hco]; exact hchunk hsec)]
    rw [leUint16_le16 st hst, hco]
    by_cases hpa : caps &&& clientPluginAuth = 0
    · simp [hpa, hsec]
    · have hrc : read_cstr (plugin ++ 0 :: []) = plugin := read_cstr_append plugin [] hplug
      simp [hpa, hsec, hrc]

theorem authDataLenOf_ofNat (L : Nat) (h : 8 < L) :
    authDataLenOf (Int.ofNat L) = max 13 (L - 8) - 1 := by
  show (if (L : Int) - 8 > 13 then (L : Int) - 8 else 13).toNat - 1 = max 13 (L - 8) - 1
  by_cases h13 : (13 : Int) < (L : Int) - 8
  · rw [if_pos h13]
    omega
  · rw [if_neg h13]
    omega

theorem authDataLenOf_neg_one : authDataLenOf (-1) = 12 := by decide

/-- The extended field stage never returns `MissingData`. -/
theorem decodeExtFields_ne_missing (s : MySQLv10) (buf sv a1 : List Nat)
    (cid caps pos : Nat) :
    MySQLv10.decodeExtFields s buf sv cid a1 caps pos ≠ .err .MissingData := by
  simp only [MySQLv10.decodeExtFields]
  repeat' split
  all_goals simp

/-- The fixed field stage never returns `MissingData`. -/
theorem decodeFields_ne_missing (s : MySQLv10) (buf sv : List Nat)
    (pktLen pos : Nat) :
    MySQLv10.decodeFields s buf pktLen sv pos ≠ .err .MissingData := by
  simp only [MySQLv10.decodeFields]
  repeat' split
  all_goals first
    | exact decodeExtFields_ne_missing _ _ _ _ _ _ _
    | simp

/-- After the two header length checks pass, `Decode` cannot return
`MissingData` any more. -/
theorem Decode_ne_missing_of_checks (s : MySQLv10) (buf : List Nat)
    (h1 : ¬ buf.length < 4) (h2 : ¬ pktLen24 buf + 4 > buf.length) :
    MySQLv10.Decode s buf ≠ .err .MissingData := by
  simp only [MySQLv10.Decode, if_neg h1, if_neg h2]
  repeat' split
  all_goals first
    | exact decodeFields_ne_missing _ _ _ _ _
    | simp

/-! ## Claims -/

/-- C1: the claim says `Decode` never reads out of bounds or panics, and that
any field read needing more bytes than the buffer holds yields `MissingData`.
The code violates this: the buffer `[0,0,0,0]` passes both header checks (its
declared body length is 0) and then the protocol version read `buf[4]` is out
of range, a Go runtime panic, where the spec demands `MissingData`. -/
theorem c1_decode_panics_on_four_zero_bytes :
    MySQLv10.Decode MySQLv10.zero [0, 0, 0, 0] = .oob := by decide

/-- C2 counterexample: a buffer with declared body length 1 (declared packet
end at offset 5) whose field reads run to offset 21; with zero padding the
buffer is long enough, and `Decode` succeeds instead of returning
`MissingData` as the claim requires. -/
theorem c2_counterexample_padded_buffer_decodes :
    pktLen24 ([1, 0, 0, 0, 10] ++ List.replicate 16 0) = 1 ∧
    MySQLv10.Decode MySQLv10.zero ([1, 0, 0, 0, 10] ++ List.replicate 16 0) =
      .ok { MySQLv10.zero with AuthData := List.replicate 8 0 } := by decide

/-- C2 amended: `Decode` bounds its reads against the whole buffer, not the
declared packet end: `MissingData` is returned only by the two header checks
(buffer shorter than 4 bytes, or declared length running past the buffer);
reads beyond the declared packet end that stay inside the buffer do not
produce `MissingData`. -/
theorem c2_missingData_only_header_checks (s : MySQLv10) (buf : List Nat)
    (h : MySQLv10.Decode s buf = .err .MissingData) :
    buf.length < 4 ∨ pktLen24 buf + 4 > buf.length := by
  by_cases h1 : buf.length < 4
  · exact Or.inl h1
  by_cases h2 : pktLen24 buf + 4 > buf.length
  · exact Or.inr h2
  exact absurd h (Decode_ne_missing_of_checks s buf h1 h2)

theorem c2_witness :
    ([] : List Nat).length < 4 ∨ pktLen24 [] + 4 > ([] : List Nat).length :=
  c2_missingData_only_header_checks MySQLv10.zero [] (by decide)

/-- C3: buffers shorter than 4 bytes fail with `MissingData`, and buffers of
at least 4 bytes whose 24 bit little endian declared length `pktLen`
satisfies `pktLen + 4 > len(buffer)` fail with `MissingData`. -/
theorem c3_header_length_checks (s : MySQLv10) (buf : List Nat) :
    (buf.length < 4 → MySQLv10.Decode s buf = .err .MissingData) ∧
    (4 ≤ buf.length → pktLen24 buf + 4 > buf.length →
      MySQLv10.Decode s buf = .err .MissingData) := by
  constructor
  · intro h
    simp only [MySQLv10.Decode, if_pos h]
  · intro h4 hgt
    simp only [MySQLv10.Decode, if_neg (by omega : ¬ buf.length < 4), if_pos hgt]

theorem c3_witness :
    MySQLv10.Decode MySQLv10.zero [0, 0] = .err .MissingData ∧
    MySQLv10.Decode MySQLv10.zero [5, 0, 0, 0] = .err .MissingData :=
  ⟨(c3_header_length_checks MySQLv10.zero [0, 0]).1 (by decide),
   (c3_header_length_checks MySQLv10.zero [5, 0, 0, 0]).2 (by decide) (by decide)⟩

/-- C4 counterexample: the claim quantifies over all buffers whose byte at
offset 4 is not 10, but a buffer that fails the declared length header check
returns `MissingData`, not `InvalidProtocol`: here the declared body length
is 200 while the buffer has 5 bytes. -/
theorem c4_counterexample_header_check_first :
    ([200, 0, 0, 0, 99] : List Nat).getD 4 0 ≠ 10 ∧
    MySQLv10.Decode MySQLv10.zero [200, 0, 0, 0, 99] = .err .MissingData := by decide

/-- C4 amended: for buffers that pass the two header length checks, a byte at
offset 4 different from 10 makes `Decode` fail with `InvalidProtocol`. -/
theorem c4_invalidProtocol_after_header_checks (s : MySQLv10) (buf : List Nat)
    (h5 : 4 < buf.length) (hpkt : pktLen24 buf + 4 ≤ buf.length)
    (hver : buf.getD 4 0 ≠ 10) :
    MySQLv10.Decode s buf = .err .InvalidProtocol := by
  have h4 : buf[4]? = some (buf.getD 4 0) := by
    rw [List.getElem?_eq_getElem h5, List.getD_eq_getElem buf 0 h5]
  simp only [MySQLv10.Decode, if_neg (by omega : ¬ buf.length < 4),
    if_neg (by omega : ¬ pktLen24 buf + 4 > buf.length), h4]
  rw [if_pos (Ne.symm hver)]

theorem c4_witness :
    MySQLv10.Decode MySQLv10.zero [0, 0, 0, 0, 9] = .err .InvalidProtocol :=
  c4_invalidProtocol_after_header_checks MySQLv10.zero [0, 0, 0, 0, 9]
    (by decide) (by decide) (by decide)

/-- C5: a well formed extended packet with both the plugin auth and the
secure connection capability bits set and declared auth plugin data length
L > 8 decodes successfully, and the resulting AuthData has length exactly
8 + max(13, L - 8) - 1. -/
theorem c5_authdata_length_plugin_secure (s : MySQLv10)
    (seq cid charSet st caps L : Nat) (version auth1 chunk plugin : List Nat)
    (hv : ∀ b ∈ version, b ≠ 0) (hplug : ∀ b ∈ plugin, b ≠ 0)
    (hcid : cid < 4294967296) (hcaps : caps < 4294967296) (hst : st < 65536)
    (ha1 : auth1.length = 8)
    (hpa : caps &&& clientPluginAuth ≠ 0) (hsec : caps &&& clientSecureConnection ≠ 0)
    (hL : 8 < L) (hchunk : chunk.length = max 13 (L - 8) - 1)
    (hlen : (encodeBody true version cid auth1 charSet st caps L chunk plugin).length
      < 16777216) :
    MySQLv10.Decode s
      (encodeHandshake seq true version cid auth1 charSet st caps L chunk plugin) =
      .ok { s with
            ServerVersion := version
            ConnectionId := cid
            CharacterSet := charSet
            Status := st
            Capabilities := caps
            AuthPlugin := plugin
            AuthData := auth1 ++ chunk } ∧
    (auth1 ++ chunk).length = 8 + max 13 (L - 8) - 1 := by
  constructor
  · rw [decode_encode_ext s seq cid charSet st caps L version auth1 chunk plugin hv hplug
        hcid hcaps hst ha1
        (fun _ => by rw [if_pos hpa, authDataLenOf_ofNat L hL]; exact hchunk) hlen]
    simp [hpa, hsec]
  · simp only [List.length_append, ha1, hchunk]
    omega

/-- C6: secure connection bit set, plugin auth bit unset: the declared auth
length stays the sentinel -1, the chunk length formula yields
max(13, -1 - 8) - 1 = 12, and decoding succeeds with AuthData of length
8 + 12 = 20. -/
theorem c6_sentinel_fallback (s : MySQLv10)
    (seq cid charSet st caps alb : Nat) (version auth1 chunk plugin : List Nat)
    (hv : ∀ b ∈ version, b ≠ 0) (hplug : ∀ b ∈ plugin, b ≠ 0)
    (hcid : cid < 4294967296) (hcaps : caps < 4294967296) (hst : st < 65536)
    (ha1 : auth1.length = 8)
    (hpa : caps &&& clientPluginAuth = 0) (hsec : caps &&& clientSecureConnection ≠ 0)
    (hchunk : chunk.length = 12)
    (hlen : (encodeBody true version cid auth1 charSet st caps alb chunk plugin).length
      < 16777216) :
    authDataLenOf (-1) = 12 ∧
    MySQLv10.Decode s
      (encodeHandshake seq true version cid auth1 charSet st caps alb chunk plugin) =
      .ok { s with
            ServerVersion := version
            ConnectionId := cid
            CharacterSet := charSet
            Status := st
            Capabilities := caps
            AuthPlugin := s.AuthPlugin
            AuthData := auth1 ++ chunk } ∧
    (auth1 ++ chunk).length = 20 := by
  refine ⟨authDataLenOf_neg_one, ?_, ?_⟩
  · rw [decode_encode_ext s seq cid charSet st caps alb version auth1 chunk plugin hv hplug
        hcid hcaps hst ha1
        (fun _ => by rw [if_neg (by simp [hpa]), hchunk, authDataLenOf_neg_one]) hlen]
    simp [hpa, hsec]
  · simp only [List.length_append, ha1, hchunk]

/-- C7: a well formed protocol 10 packet whose body ends exactly at the lower
capability flags (no extended fields) decodes successfully with AuthData of
length exactly 8 and CharacterSet, Status and AuthPlugin keeping the zero
and empty defaults of the fresh record. -/
theorem c7_no_extended_fields_defaults (seq cid charSet st caps alb : Nat)
    (version auth1 chunk plugin : List Nat)
    (hv : ∀ b ∈ version, b ≠ 0) (hcid : cid < 4294967296) (hcaps : caps < 65536)
    (ha1 : auth1.length = 8) (hlen : version.length + 17 < 16777216) :
    MySQLv10.Decode MySQLv10.zero
      (encodeHandshake seq false version cid auth1 charSet st caps alb chunk plugin) =
      .ok { ServerVersion := version
            ConnectionId := cid
            CharacterSet := 0
            Status := 0
            Capabilities := caps
            AuthPlugin := []
            AuthData := auth1 } ∧
    auth1.length = 8 := by
  refine ⟨?_, ha1⟩
  rw [decode_encode_noext MySQLv10.zero seq cid charSet st caps alb version auth1 chunk
      plugin hv hcid hcaps ha1 hlen]
  rfl

/-- C8: extended packet with the plugin auth bit set and the secure
connection bit unset: the auth plugin name is decoded from the null
terminated string at the cursor and AuthData keeps length exactly 8. -/
theorem c8_plugin_without_secure (s : MySQLv10)
    (seq cid charSet st caps alb : Nat) (version auth1 chunk plugin : List Nat)
    (hv : ∀ b ∈ version, b ≠ 0) (hplug : ∀ b ∈ plugin, b ≠ 0)
    (hcid : cid < 4294967296) (hcaps : caps < 4294967296) (hst : st < 65536)
    (ha1 : auth1.length = 8)
    (hpa : caps &&& clientPluginAuth ≠ 0) (hsec : caps &&& clientSecureConnection = 0)
    (hlen : (encodeBody true version cid auth1 charSet st caps alb chunk plugin).length
      < 16777216) :
    MySQLv10.Decode s
      (encodeHandshake seq true version cid auth1 charSet st caps alb chunk plugin) =
      .ok { s with
            ServerVersion := version
            ConnectionId := cid
            CharacterSet := charSet
            Status := st
            Capabilities := caps
            AuthPlugin := plugin
            AuthData := auth1 } ∧
    auth1.length = 8 := by
  refine ⟨?_, ha1⟩
  rw [decode_encode_ext s seq cid charSet st caps alb version auth1 chunk plugin hv hplug
      hcid hcaps hst ha1 (fun hs => absurd hsec hs) hlen]
  simp [hpa, hsec]

theorem c5_witness :
    MySQLv10.Decode MySQLv10.zero
      (encodeHandshake 0 true [56] 1 (List.replicate 8 3) 8 2 557056 21
        (List.replicate 12 7) [112]) =
      .ok { MySQLv10.zero with
            ServerVersion := [56]
            ConnectionId := 1
            CharacterSet := 8
            Status := 2
            Capabilities := 557056
            AuthPlugin := [112]
            AuthData := List.replicate 8 3 ++ List.replicate 12 7 } ∧
    (List.replicate 8 3 ++ List.replicate 12 7).length = 8 + max 13 (21 - 8) - 1 :=
  c5_authdata_length_plugin_secure MySQLv10.zero 0 1 8 2 557056 21 [56]
    (List.replicate 8 3) (List.replicate 12 7) [112] (by decide) (by decide) (by decide)
    (by decide) (by decide) (by decide) (by decide) (by decide) (by decide) (by decide)
    (by decide)

theorem c6_witness :
    authDataLenOf (-1) = 12 ∧
    MySQLv10.Decode MySQLv10.zero
      (encodeHandshake 0 true [56] 1 (List.replicate 8 3) 8 2 32768 0
        (List.replicate 12 7) []) =
      .ok { MySQLv10.zero with
            ServerVersion := [56]
            ConnectionId := 1
            CharacterSet := 8
            Status := 2
            Capabilities := 32768
            AuthPlugin := MySQLv10.zero.AuthPlugin
            AuthData := List.replicate 8 3 ++ List.replicate 12 7 } ∧
    (List.replicate 8 3 ++ List.replicate 12 7).length = 20 :=
  c6_sentinel_fallback MySQLv10.zero 0 1 8 2 32768 0 [56] (List.replicate 8 3)
    (List.replicate 12 7) [] (by decide) (by decide) (by decide) (by decide) (by decide)
    (by decide) (by decide) (by decide) (by decide) (by decide)

theorem c7_witness :
    MySQLv10.Decode MySQLv10.zero (encodeHandshake 0 false [56] 7 (List.replicate 8 1) 0 0 0 0 [] []) =
      .ok { ServerVersion := [56]
            ConnectionId := 7
            CharacterSet := 0
            Status := 0
            Capabilities := 0
            AuthPlugin := []
            AuthData := List.replicate 8 1 } ∧
    (List.replicate 8 1).length = 8 :=
  c7_no_extended_fields_defaults 0 7 0 0 0 0 [56] (List.replicate 8 1) [] []
    (by decide) (by decide) (by decide) (by decide) (by decide)

theorem c8_witness :
    MySQLv10.Decode MySQLv10.zero
      (encodeHandshake 0 true [56] 1 (List.replicate 8 3) 8 2 524288 0 [] [112]) =
      .ok { MySQLv10.zero with
            ServerVersion := [56]
            ConnectionId := 1
            CharacterSet := 8
            Status := 2
            Capabilities := 524288
            AuthPlugin := [112]
            AuthData := List.replicate 8 3 } ∧
    (List.replicate 8 3).length = 8 :=
  c8_plugin_without_secure MySQLv10.zero 0 1 8 2 524288 0 [56] (List.replicate 8 3) [] [112]
    (by decide) (by decide) (by decide) (by decide) (by decide) (by decide) (by decide)
    (by decide) (by decide)

/-- C9: the literal byte sequence of a minimal MySQL 8.x handshake (body
length 74, sequence 0, protocol 10, version string "8.0.32", connection id 1,
8 byte salt, filler, lower capabilities 0x8000, character set 255, status 2,
upper capabilities 0x0008 with the plugin auth bit, declared auth length 21,
10 reserved bytes, 12 more salt bytes and their null byte, plugin name
"caching_sha2_password") decodes to ServerVersion "8.0.32" (bytes
[56,46,48,46,51,50]), AuthPlugin "caching_sha2_password", and AuthData of
length 20. -/
theorem c9_end_to_end_mysql8 :
    MySQLv10.Decode MySQLv10.zero
      ([74, 0, 0] ++ [0] ++ [10] ++ [56, 46, 48, 46, 51, 50] ++ [0] ++ [1, 0, 0, 0] ++
        [1, 2, 3, 4, 5, 6, 7, 8] ++ [0] ++ [0, 128] ++ [255] ++ [2, 0] ++ [8, 0] ++ [21] ++
        List.replicate 10 0 ++ [9, 10, 11, 12, 13, 14, 15, 16, 17, 18, 19, 20] ++ [0] ++
        [99, 97, 99, 104, 105, 110, 103, 95, 115, 104, 97, 50, 95, 112, 97, 115, 115, 119,
          111, 114, 100] ++ [0]) =
      .ok { ServerVersion := [56, 46, 48, 46, 51, 50]
            ConnectionId := 1
            CharacterSet := 255
            Status := 2
            Capabilities := 557056
            AuthPlugin := [99, 97, 99, 104, 105, 110, 103, 95, 115, 104, 97, 50, 95, 112,
              97, 115, 115, 119, 111, 114, 100]
            AuthData := [1, 2, 3, 4, 5, 6, 7, 8, 9, 10, 11, 12, 13, 14, 15, 16, 17, 18,
              19, 20] } ∧
    ([1, 2, 3, 4, 5, 6, 7, 8, 9, 10, 11, 12, 13, 14, 15, 16, 17, 18, 19, 20] : List Nat).length
      = 20 := by decide

theorem MySQLv10.ext_eq (a b : MySQLv10)
    (h1 : a.ServerVersion = b.ServerVersion) (h2 : a.ConnectionId = b.ConnectionId)
    (h3 : a.CharacterSet = b.CharacterSet) (h4 : a.Status = b.Status)
    (h5 : a.Capabilities = b.Capabilities) (h6 : a.AuthPlugin = b.AuthPlugin)
    (h7 : a.AuthData = b.AuthData) : a = b := by
  cases a
  cases b
  simp_all

/-- C10: round trip.  Encoding any representable `MySQLv10` record with a
chosen capability configuration following the spec section 4.2 wire layout
and decoding the resulting buffer returns the original record.  The
hypotheses are exactly representability of the record in the wire format:
null free strings, fields within their wire widths, the extended field
region forced when capability bits or non default optional fields demand it,
and the auth data length matching what the capability bits declare. -/
theorem c10_round_trip (seq alb : Nat) (ext : Bool) (r : MySQLv10)
    (hv : ∀ b ∈ r.ServerVersion, b ≠ 0) (hplug : ∀ b ∈ r.AuthPlugin, b ≠ 0)
    (hcid : r.ConnectionId < 4294967296) (hcaps : r.Capabilities < 4294967296)
    (hst : r.Status < 65536)
    (hnoext : ext = false → r.Capabilities < 65536 ∧ r.CharacterSet = 0 ∧ r.Status = 0 ∧
      r.AuthPlugin = [] ∧ r.AuthData.length = 8)
    (hplugdef : r.Capabilities &&& clientPluginAuth = 0 → r.AuthPlugin = [])
    (hsecdata : ext = true → r.Capabilities &&& clientSecureConnection ≠ 0 →
      r.AuthData.length = 8 + authDataLenOf
        (if r.Capabilities &&& clientPluginAuth ≠ 0 then Int.ofNat alb else -1))
    (hnosecdata : ext = true → r.Capabilities &&& clientSecureConnection = 0 →
      r.AuthData.length = 8)
    (hlen : (encodeRecord seq ext alb r).length < 16777220) :
    MySQLv10.Decode MySQLv10.zero (encodeRecord seq ext alb r) = .ok r := by
  cases ext with
  | false =>
    obtain ⟨hc16, hcs, hstz, hap, hal8⟩ := hnoext rfl
    have htake : r.AuthData.take 8 = r.AuthData := List.take_of_length_le (by omega)
    have hEl : (encodeRecord seq false alb r).length =
        (encodeBody false r.ServerVersion r.ConnectionId (r.AuthData.take 8)
          r.CharacterSet r.Status r.Capabilities alb (r.AuthData.drop 8)
          r.AuthPlugin).length + 4 := by
      simp only [encodeRecord, encodeHandshake, le24, List.length_append,
        List.length_cons, List.length_nil]
      omega
    have hbl : (encodeBody false r.ServerVersion r.ConnectionId (r.AuthData.take 8)
        r.CharacterSet r.Status r.Capabilities alb (r.AuthData.drop 8)
        r.AuthPlugin).length = r.ServerVersion.length + 17 := by
      simp only [encodeBody, le32, le16, List.length_append, List.length_cons,
        List.length_nil, List.length_take, if_false, Bool.false_eq_true, ite_false]
      omega
    rw [encodeRecord]
    rw [decode_encode_noext MySQLv10.zero seq r.ConnectionId r.CharacterSet r.Status
        r.Capabilities alb r.ServerVersion (r.AuthData.take 8) (r.AuthData.drop 8)
        r.AuthPlugin hv hcid hc16 (by simp only [List.length_take]; omega)
        (by rw [show r.ServerVersion.length + 17 =
              (encodeBody false r.ServerVersion r.ConnectionId (r.AuthData.take 8)
                r.CharacterSet r.Status r.Capabilities alb (r.AuthData.drop 8)
                r.AuthPlugin).length from hbl.symm]
            omega)]
    refine congrArg DecodeResult.ok (MySQLv10.ext_eq _ _ rfl rfl ?_ ?_ rfl ?_ ?_)
    · rw [hcs]
      rfl
    · rw [hstz]
      rfl
    · rw [hap]
      rfl
    · exact htake
  | true =>
    have h8 : 8 ≤ r.AuthData.length := by
      by_cases hs : r.Capabilities &&& clientSecureConnection = 0
      · rw [hnosecdata rfl hs]
      · rw [hsecdata rfl hs]
        omega
    have hEl : (encodeRecord seq true alb r).length =
        (encodeBody true r.ServerVersion r.ConnectionId (r.AuthData.take 8)
          r.CharacterSet r.Status r.Capabilities alb (r.AuthData.drop 8)
          r.AuthPlugin).length + 4 := by
      simp only [encodeRecord, encodeHandshake, le24, List.length_append,
        List.length_cons, List.length_nil]
      omega
    rw [encodeRecord]
    rw [decode_encode_ext MySQLv10.zero seq r.ConnectionId r.CharacterSet r.Status
        r.Capabilities alb r.ServerVersion (r.AuthData.take 8) (r.AuthData.drop 8)
        r.AuthPlugin hv hplug hcid hcaps hst
        (by simp only [List.length_take]; omega)
        (fun hs => by
          rw [List.length_drop, hsecdata rfl hs]
          omega)
        (by omega)]
    refine congrArg DecodeResult.ok (MySQLv10.ext_eq _ _ rfl rfl rfl rfl rfl ?_ ?_)
    · by_cases hpa : r.Capabilities &&& clientPluginAuth = 0
      · rw [if_neg (not_not_intro hpa), hplugdef hpa]
        rfl
      · rw [if_pos hpa]
    · by_cases hs : r.Capabilities &&& clientSecureConnection = 0
      · rw [if_neg (not_not_intro hs), List.append_nil,
          List.take_of_length_le (le_of_eq (hnosecdata rfl hs))]
      · rw [if_pos hs, List.take_append_drop]

theorem c10_witness :
    MySQLv10.Decode MySQLv10.zero
      (encodeRecord 0 true 21
        { ServerVersion := [56]
          ConnectionId := 1
          CharacterSet := 8
          Status := 2
          Capabilities := 557056
          AuthPlugin := [112]
          AuthData := List.replicate 20 5 }) =
      .ok { ServerVersion := [56]
            ConnectionId := 1
            CharacterSet := 8
            Status := 2
            Capabilities := 557056
            AuthPlugin := [112]
            AuthData := List.replicate 20 5 } :=
  c10_round_trip 0 21 true
    { ServerVersion := [56]
      ConnectionId := 1
      CharacterSet := 8
      Status := 2
      Capabilities := 557056
      AuthPlugin := [112]
      AuthData := List.replicate 20 5 }
    (by decide) (by decide) (by decide) (by decide) (by decide) (by decide) (by decide)
    (by decide) (by decide) (by decide)
